import Mathlib

/-!
Verification of the orchestration core of a distributed traffic-surveillance
pipeline, modelled from src/master_worker/master_worker.py and
src/api_server/main.py: IoU geometry, greedy deduplication, plate
association, dispatch fan-out, bounded result collection, and task status
handling.  Bounding boxes use integer pixel coordinates, matching the
detector workers, which cast every coordinate to int before publishing.
-/

/-- A bounding box as the list [x1, y1, x2, y2] in integer pixel
coordinates. -/
structure Box where
  x1 : ℤ
  y1 : ℤ
  x2 : ℤ
  y2 : ℤ
deriving DecidableEq, Repr

/-- The iou function of master_worker.py, lines 33 to 42, transcribed
line by line: the intersection uses the pixel-inclusive plus-one
convention clamped at 0, the box areas use the same plus-one convention
without clamping, and the ratio is 0 when the union is zero. -/
def iou (box1 box2 : Box) : ℚ :=
  let xi1 := max box1.x1 box2.x1
  let yi1 := max box1.y1 box2.y1
  let xi2 := min box1.x2 box2.x2
  let yi2 := min box1.y2 box2.y2
  let inter_area := max 0 (xi2 - xi1 + 1) * max 0 (yi2 - yi1 + 1)
  let box1_area := (box1.x2 - box1.x1 + 1) * (box1.y2 - box1.y1 + 1)
  let box2_area := (box2.x2 - box2.x1 + 1) * (box2.y2 - box2.y1 + 1)
  let union_area := box1_area + box2_area - inter_area
  if union_area ≠ 0 then (inter_area : ℚ) / (union_area : ℚ) else 0

/-- Geometric area of a box as the claim words it: width x2 - x1 times
height y2 - y1. -/
def geomArea (b : Box) : ℤ := (b.x2 - b.x1) * (b.y2 - b.y1)

/-- Geometric intersection area of two boxes, zero when they are
disjoint. -/
def geomInter (a b : Box) : ℤ :=
  max 0 (min a.x2 b.x2 - max a.x1 b.x1) * max 0 (min a.y2 b.y2 - max a.y1 b.y1)

/-- The IoU formula exactly as claim C3 states it, over geometric areas:
intersection divided by area1 plus area2 minus intersection, and 0 when
that union is zero. -/
def iouGeomSpec (a b : Box) : ℚ :=
  let u := geomArea a + geomArea b - geomInter a b
  if u ≠ 0 then (geomInter a b : ℚ) / (u : ℚ) else 0

/-- Number of integer pixels in the closed interval from lo to hi. -/
def pixLen (lo hi : ℤ) : ℤ := if hi < lo then 0 else hi - lo + 1

/-- Pixel-inclusive box area, the plus-one convention of the code,
without clamping. -/
def pixelArea (b : Box) : ℤ := (b.x2 - b.x1 + 1) * (b.y2 - b.y1 + 1)

/-- Pixel-inclusive intersection area of two boxes, clamped at zero. -/
def pixelInter (a b : Box) : ℤ :=
  pixLen (max a.x1 b.x1) (min a.x2 b.x2) * pixLen (max a.y1 b.y1) (min a.y2 b.y2)

/-- Pixel-inclusive union area of two boxes. -/
def pixelUnion (a b : Box) : ℤ :=
  pixelArea a + pixelArea b - pixelInter a b

/-- One detection as consumed by the deduplicator: a class label under
the key type and a bounding box. -/
structure Detection where
  type : String
  bbox : Box
deriving DecidableEq, Repr

/-- The body of the loop of deduplicate_detections, master_worker.py
lines 46 to 53: det is appended to unique unless some already kept u has
the same label and IoU with det strictly above the threshold. -/
def dedup_step (iou_threshold : ℚ) (unique : List Detection)
    (det : Detection) : List Detection :=
  if unique.any fun u =>
      det.type == u.type && decide (iou det.bbox u.bbox > iou_threshold)
  then unique
  else unique ++ [det]

/-- The deduplicate_detections function of master_worker.py, lines 44
to 54: a greedy single pass over the detections in arrival order,
starting from the empty unique list, with threshold default 0.5. -/
def deduplicate_detections (detections : List Detection)
    (iou_threshold : ℚ := 1 / 2) : List Detection :=
  detections.foldl (dedup_step iou_threshold) []

/-- A plate detection: recognized text and bounding box. -/
structure Plate where
  plate_text : String
  bbox : Box
deriving DecidableEq, Repr

/-- The plate-search loop of process_input, master_worker.py lines 177
to 182: best_match is the text of the first plate whose IoU with the
violation box is strictly above 0.5, scanning all plates in order and
stopping at the first hit. -/
def find_plate_match (all_plates : List Plate) (hv_bbox : Box) : Option String :=
  (all_plates.find? fun p => decide (iou hv_bbox p.bbox > 1 / 2)).map
    fun p => p.plate_text

/-- The label written into the report for one helmet violation,
master_worker.py line 184: best_match or the string Unknown, which is
the Python truthiness test, so both a missing match and an empty matched
text produce Unknown. -/
def violation_plate_label (all_plates : List Plate) (hv_bbox : Box) : String :=
  match find_plate_match all_plates hv_bbox with
  | none => "Unknown"
  | some t => if t = "" then "Unknown" else t

/-- One step of the Python dict comprehension keyed by plate text,
master_worker.py line 175: inserting a plate under its text replaces the
value at an existing key in place, otherwise appends a new entry, as a
Python dict preserves first-insertion key order. -/
def dict_insert (m : List (String × Plate)) (p : Plate) : List (String × Plate) :=
  if m.any fun e => e.1 == p.plate_text then
    m.map fun e => if e.1 == p.plate_text then (e.1, p) else e
  else m ++ [(p.plate_text, p)]

/-- The dict comprehension of master_worker.py line 175 keyed by plate
text, folded over all plates in arrival order. -/
def plate_dict (all_plates : List Plate) : List (String × Plate) :=
  all_plates.foldl dict_insert []

/-- The license_plates field of the final report, master_worker.py
line 192: the plate text of every value of the dict keyed by plate
text. -/
def license_plates (all_plates : List Plate) : List String :=
  (plate_dict all_plates).map fun e => e.2.plate_text

/-- The three detector kinds. -/
inductive Kind where
  | vehicle
  | plate
  | helmet
deriving DecidableEq, Repr

/-- The kind list in the dispatch order of master_worker.py line 249. -/
def kinds : List Kind := [Kind.vehicle, Kind.plate, Kind.helmet]

/-- One published frame-subtask message, tagged with parent task id,
frame number and detector kind. -/
structure FrameMsg where
  parent_id : String
  frame_no : Nat
  kind : Kind
deriving DecidableEq, Repr

/-- The send_frame_to_workers function of master_worker.py, lines 240
to 253: one message per detector kind for the given frame. -/
def send_frame_to_workers (task_id : String) (frame_no : Nat) : List FrameMsg :=
  kinds.map fun k => ⟨task_id, frame_no, k⟩

/-- The dispatch loop of process_input: every sent frame is fanned out
through send_frame_to_workers. -/
def dispatch_frames (task_id : String) (sent_frames : List Nat) : List FrameMsg :=
  sent_frames.flatMap (send_frame_to_workers task_id)

/-- The manifest of expected unit-and-kind keys induced by the sent
frame list: process_input later collects exactly the keys of sent_frames
for each of the three kinds. -/
def expected_manifest (sent_frames : List Nat) : List (Nat × Kind) :=
  sent_frames.flatMap fun u => kinds.map fun k => (u, k)

/-- Wait budget constant MAX_WAIT_TIME of master_worker.py line 22. -/
def MAX_WAIT_TIME : Nat := 60

/-- Poll spacing constant POLL_INTERVAL of master_worker.py line 23. -/
def POLL_INTERVAL : Nat := 2

/-- A result-store key: the code renders it as the colon-joined string
of parent id, task type and frame number; it is modelled as the
triple. -/
abbrev RKey := String × String × Nat

/-- An arrival schedule for the result store: for a key, the time the
record becomes available together with its content, or none when the
record is never written. -/
abbrev Sched := RKey → Option (Nat × String)

/-- Reading a key from the result store at a given clock: absent when
already deleted, when never scheduled, or when its arrival time has not
been reached. -/
def lookup_store (sched : Sched) (deleted : List RKey) (key : RKey)
    (clock : Nat) : Option String :=
  if key ∈ deleted then none
  else
    match sched key with
    | some (arrival, v) => if arrival ≤ clock then some v else none
    | none => none

/-- The inner while loop of collect_results, master_worker.py lines 259
to 268: the store is read, and on a miss the loop sleeps POLL_INTERVAL
and retries while waited is below MAX_WAIT_TIME, which makes
MAX_WAIT_TIME divided by POLL_INTERVAL attempts in all; here n counts
the attempts remaining and clock the simulated elapsed time. -/
def poll_key (sched : Sched) (deleted : List RKey) (key : RKey) :
    Nat → Nat → Option String × Nat
  | 0, clock => (none, clock)
  | Nat.succ n, clock =>
    match lookup_store sched deleted key clock with
    | some v => (some v, clock)
    | none => poll_key sched deleted key n (clock + POLL_INTERVAL)

/-- The per-frame loop of collect_results, master_worker.py lines 255
to 271, threading the clock and the set of keys deleted so far; a found
record is appended to the results and its key deleted, a timed-out key
is only logged.  Returns the collected records, the final deleted set
and the final clock. -/
def collect_aux (sched : Sched) (parent_id task_type : String) :
    List Nat → Nat → List RKey → List String × List RKey × Nat
  | [], clock, deleted => ([], deleted, clock)
  | frame_no :: rest, clock, deleted =>
    match poll_key sched deleted (parent_id, task_type, frame_no)
        (MAX_WAIT_TIME / POLL_INTERVAL) clock with
    | (some v, clock2) =>
      let r := collect_aux sched parent_id task_type rest clock2
        ((parent_id, task_type, frame_no) :: deleted)
      (v :: r.1, r.2)
    | (none, clock2) =>
      collect_aux sched parent_id task_type rest clock2 deleted

/-- The collect_results function of master_worker.py, lines 255 to 271,
started at clock 0 with nothing deleted. -/
def collect_results (sched : Sched) (parent_id task_type : String)
    (frame_list : List Nat) : List String × List RKey × Nat :=
  collect_aux sched parent_id task_type frame_list 0 []

/-- The redis keys of one task visible to the status endpoint: the
result key and the status key. -/
structure TaskStore where
  result : Option String
  status : Option String
deriving DecidableEq, Repr

/-- Outcome of process_input inside handle_task: a result value, or an
exception raised anywhere in the processing stages. -/
inductive ProcessOutcome where
  | ok (res : String)
  | error
deriving DecidableEq, Repr

/-- The handle_task function of master_worker.py, lines 56 to 69: on
success the result is written and the status set to done; the except
branch only logs the failure, so no key is written and the store is
unchanged. -/
def handle_task (store : TaskStore) (outcome : ProcessOutcome) : TaskStore :=
  match outcome with
  | ProcessOutcome.ok res => { result := some res, status := some "done" }
  | ProcessOutcome.error => store

/-- The status field of the response of the result endpoint,
api_server/main.py lines 105 to 122: done when a result exists, else the
stored status, else not_found. -/
def get_result_status (store : TaskStore) : String :=
  match store.result with
  | some _ => "done"
  | none =>
    match store.status with
    | some st => st
    | none => "not_found"

/-- The clamped plus-one width of the code equals the pixel count of the
closed integer interval. -/
lemma max_zero_eq_pixLen (lo hi : ℤ) : max 0 (hi - lo + 1) = pixLen lo hi := by
  unfold pixLen
  split <;> omega

/-- Bridge: the transcribed iou equals the structured pixel-inclusive
formula. -/
lemma iou_eq_pixel (a b : Box) :
    iou a b =
      if pixelUnion a b ≠ 0 then (pixelInter a b : ℚ) / (pixelUnion a b : ℚ)
      else 0 := by
  simp only [iou, pixelUnion, pixelInter, pixelArea, max_zero_eq_pixLen]

/-- The pixel-inclusive intersection is symmetric. -/
lemma pixelInter_comm (a b : Box) : pixelInter a b = pixelInter b a := by
  unfold pixelInter
  rw [max_comm a.x1, min_comm a.x2, max_comm a.y1, min_comm a.y2]

/-- The pixel-inclusive union is symmetric. -/
lemma pixelUnion_comm (a b : Box) : pixelUnion a b = pixelUnion b a := by
  unfold pixelUnion
  rw [pixelInter_comm]
  ring_nf

/-- The implemented IoU is symmetric. -/
lemma iou_comm (a b : Box) : iou a b = iou b a := by
  rw [iou_eq_pixel, iou_eq_pixel, pixelInter_comm, pixelUnion_comm]

/-- For pixel-disjoint boxes the pixel-inclusive intersection is zero. -/
lemma pixelInter_eq_zero (a b : Box)
    (h : min a.x2 b.x2 < max a.x1 b.x1 ∨ min a.y2 b.y2 < max a.y1 b.y1) :
    pixelInter a b = 0 := by
  unfold pixelInter pixLen
  rcases h with h | h
  · rw [if_pos h, zero_mul]
  · rw [if_pos h, mul_zero]

/-- Claim C3, counterexample: at the touching boxes [0,0,1,1] and
[1,1,2,2] the implemented IoU is 1/7, while the formula of the claim
over geometric areas, width x2 minus x1, gives 0, so the claim as stated
is false. -/
theorem iou_geom_formula_counterexample :
    iou ⟨0, 0, 1, 1⟩ ⟨1, 1, 2, 2⟩ = 1 / 7 ∧
    iouGeomSpec ⟨0, 0, 1, 1⟩ ⟨1, 1, 2, 2⟩ = 0 ∧
    iou ⟨0, 0, 1, 1⟩ ⟨1, 1, 2, 2⟩ ≠ iouGeomSpec ⟨0, 0, 1, 1⟩ ⟨1, 1, 2, 2⟩ := by
  have h1 : iou ⟨0, 0, 1, 1⟩ ⟨1, 1, 2, 2⟩ = 1 / 7 := by norm_num [iou]
  have h2 : iouGeomSpec ⟨0, 0, 1, 1⟩ ⟨1, 1, 2, 2⟩ = 0 := by
    norm_num [iouGeomSpec, geomArea, geomInter]
  refine ⟨h1, h2, ?_⟩
  rw [h1, h2]
  norm_num

/-- Claim C3, amended: the implemented IoU returns intersection over
area1 plus area2 minus intersection where the areas follow the
pixel-inclusive convention, width x2 minus x1 plus 1 and height y2 minus
y1 plus 1, the intersection clamped at zero, and returns 0 when that
union is zero. -/
theorem iou_formula (a b : Box) :
    (pixelUnion a b ≠ 0 →
      iou a b = (pixelInter a b : ℚ) / (pixelUnion a b : ℚ)) ∧
    (pixelUnion a b = 0 → iou a b = 0) := by
  constructor
  · intro h
    rw [iou_eq_pixel, if_pos h]
  · intro h
    rw [iou_eq_pixel, if_neg (by simp [h])]

/-- Claim C3, amended, witness: both branches of the formula evaluated
at concrete boxes. -/
theorem iou_formula_witness :
    iou ⟨0, 0, 1, 1⟩ ⟨1, 1, 2, 2⟩ =
        (pixelInter ⟨0, 0, 1, 1⟩ ⟨1, 1, 2, 2⟩ : ℚ) /
          (pixelUnion ⟨0, 0, 1, 1⟩ ⟨1, 1, 2, 2⟩ : ℚ) ∧
    iou ⟨0, 0, -1, 0⟩ ⟨0, 0, -1, 0⟩ = 0 := by
  constructor
  · exact (iou_formula ⟨0, 0, 1, 1⟩ ⟨1, 1, 2, 2⟩).1 (by decide)
  · exact (iou_formula ⟨0, 0, -1, 0⟩ ⟨0, 0, -1, 0⟩).2 (by decide)

/-- Claim C4: the implemented IoU is 1 on any non-degenerate box paired
with itself, is symmetric in its two arguments, and is 0 on any pair of
boxes whose closed integer pixel ranges are disjoint on the x axis or on
the y axis. -/
theorem iou_properties :
    (∀ b : Box, b.x1 < b.x2 → b.y1 < b.y2 → iou b b = 1) ∧
    (∀ a b : Box, iou a b = iou b a) ∧
    (∀ a b : Box,
      min a.x2 b.x2 < max a.x1 b.x1 ∨ min a.y2 b.y2 < max a.y1 b.y1 →
      iou a b = 0) := by
  refine ⟨?_, fun a b => iou_comm a b, ?_⟩
  · intro b h1 h2
    have hx : pixLen b.x1 b.x2 = b.x2 - b.x1 + 1 := by
      unfold pixLen
      split <;> omega
    have hy : pixLen b.y1 b.y2 = b.y2 - b.y1 + 1 := by
      unfold pixLen
      split <;> omega
    have hint : pixelInter b b = pixelArea b := by
      unfold pixelInter pixelArea
      rw [max_self, min_self, max_self, min_self, hx, hy]
    have hpos : 0 < pixelArea b := by
      unfold pixelArea
      exact mul_pos (by omega) (by omega)
    have huni : pixelUnion b b = pixelArea b := by
      unfold pixelUnion
      omega
    rw [iou_eq_pixel, huni, hint, if_pos (by exact_mod_cast hpos.ne')]
    exact div_self (by exact_mod_cast hpos.ne')
  · intro a b h
    rw [iou_eq_pixel, pixelInter_eq_zero a b h]
    split <;> simp

/-- Claim C4, witness: the three properties evaluated at concrete
boxes. -/
theorem iou_properties_witness :
    iou ⟨0, 0, 10, 10⟩ ⟨0, 0, 10, 10⟩ = 1 ∧
    iou ⟨0, 0, 10, 10⟩ ⟨20, 20, 30, 30⟩ = iou ⟨20, 20, 30, 30⟩ ⟨0, 0, 10, 10⟩ ∧
    iou ⟨0, 0, 10, 10⟩ ⟨20, 20, 30, 30⟩ = 0 := by
  refine ⟨?_, ?_, ?_⟩
  · exact iou_properties.1 ⟨0, 0, 10, 10⟩ (by decide) (by decide)
  · exact iou_properties.2.1 ⟨0, 0, 10, 10⟩ ⟨20, 20, 30, 30⟩
  · exact iou_properties.2.2 ⟨0, 0, 10, 10⟩ ⟨20, 20, 30, 30⟩ (Or.inl (by decide))

/-- A detection duplicating some kept detection is absorbed by the
greedy step. -/
lemma dedup_step_absorb (thr : ℚ) (acc : List Detection) (d u : Detection)
    (hu : u ∈ acc) (ht : d.type = u.type) (hiou : thr < iou d.bbox u.bbox) :
    dedup_step thr acc d = acc := by
  unfold dedup_step
  rw [if_pos]
  exact List.any_eq_true.mpr ⟨u, hu, by simp [ht, hiou]⟩

/-- A detection duplicating nothing kept is appended by the greedy
step. -/
lemma dedup_step_append (thr : ℚ) (acc : List Detection) (d : Detection)
    (h : ∀ u ∈ acc, ¬ thr < iou d.bbox u.bbox) :
    dedup_step thr acc d = acc ++ [d] := by
  unfold dedup_step
  rw [if_neg]
  simp only [List.any_eq_true, not_exists, not_and]
  intro u hu
  simp [h u hu]

/-- Once the unique list is exactly one detection that every remaining
detection duplicates, the greedy fold never grows it. -/
lemma dedup_fold_absorbed (thr : ℚ) (d : Detection) :
    ∀ rest : List Detection,
      (∀ x ∈ rest, x.type = d.type ∧ thr < iou x.bbox d.bbox) →
      List.foldl (dedup_step thr) [d] rest = [d] := by
  intro rest
  induction rest with
  | nil => intro _; rfl
  | cons x rest ih =>
    intro h
    have hx := h x (by simp)
    simp only [List.foldl_cons]
    rw [dedup_step_absorb thr [d] x d (by simp) hx.1 hx.2]
    exact ih fun y hy => h y (by simp [hy])

/-- When nothing in the input duplicates anything kept or to come, the
greedy fold appends everything. -/
lemma dedup_fold_all_kept (thr : ℚ) :
    ∀ (l acc : List Detection),
      (∀ x ∈ l, ∀ u ∈ acc, ¬ thr < iou x.bbox u.bbox) →
      List.Pairwise (fun a b => iou a.bbox b.bbox ≤ thr) l →
      List.foldl (dedup_step thr) acc l = acc ++ l := by
  intro l
  induction l with
  | nil => intro acc _ _; simp
  | cons d rest ih =>
    intro acc h hp
    simp only [List.foldl_cons]
    rw [dedup_step_append thr acc d fun u hu => h d (by simp) u hu]
    rw [List.pairwise_cons] at hp
    rw [ih (acc ++ [d]) ?_ hp.2]
    · simp
    · intro x hx u hu
      rcases List.mem_append.mp hu with hu | hu
      · exact h x (by simp [hx]) u hu
      · have : u = d := by simpa using hu
        subst this
        rw [iou_comm]
        exact not_lt.mpr (hp.1 x hx)

/-- Claim C5: the greedy single-pass deduplicator collapses any nonempty
list of same-label, pairwise-overlapping detections to exactly one
entry, and keeps every detection of a list whose pairwise IoU is at or
below the threshold. -/
theorem deduplicate_extremes :
    (∀ (l : List Detection) (thr : ℚ), l ≠ [] →
      (∀ d ∈ l, ∀ e ∈ l, d.type = e.type) →
      List.Pairwise (fun a b => thr < iou a.bbox b.bbox) l →
      (deduplicate_detections l thr).length = 1) ∧
    (∀ (l : List Detection) (thr : ℚ),
      List.Pairwise (fun a b => iou a.bbox b.bbox ≤ thr) l →
      deduplicate_detections l thr = l) := by
  constructor
  · intro l thr hne hty hp
    match l with
    | [] => exact absurd rfl hne
    | d :: rest =>
      rw [List.pairwise_cons] at hp
      unfold deduplicate_detections
      simp only [List.foldl_cons]
      rw [dedup_step_append thr [] d (by simp)]
      rw [List.nil_append]
      have habs : List.foldl (dedup_step thr) [d] rest = [d] := by
        apply dedup_fold_absorbed
        intro x hx
        refine ⟨hty x (by simp [hx]) d (by simp), ?_⟩
        rw [iou_comm]
        exact hp.1 x hx
      rw [habs]
      rfl
  · intro l thr hp
    unfold deduplicate_detections
    rw [dedup_fold_all_kept thr l [] (by simp) hp]
    simp

/-- Claim C5, witness: two identical car detections collapse to one
entry, and two distant car detections are both kept. -/
theorem deduplicate_extremes_witness :
    (deduplicate_detections
        [⟨"car", ⟨0, 0, 10, 10⟩⟩, ⟨"car", ⟨0, 0, 10, 10⟩⟩] (1 / 2)).length = 1 ∧
    deduplicate_detections
        [⟨"car", ⟨0, 0, 10, 10⟩⟩, ⟨"car", ⟨100, 100, 110, 110⟩⟩] (1 / 2) =
      [⟨"car", ⟨0, 0, 10, 10⟩⟩, ⟨"car", ⟨100, 100, 110, 110⟩⟩] := by
  constructor
  · refine deduplicate_extremes.1 _ _ (by simp) (by decide) ?_
    simp [List.pairwise_cons]
    norm_num [iou]
  · refine deduplicate_extremes.2 _ _ ?_
    simp [List.pairwise_cons]
    norm_num [iou]

/-- Claim C6, counterexample: a single plate with empty recognized text
fully overlapping the violation box is the first above-threshold match,
yet the violation is labeled Unknown instead of that matched text, so
the claim as stated is false. -/
theorem violation_first_text_counterexample :
    iou ⟨0, 0, 10, 10⟩ ⟨0, 0, 10, 10⟩ > 1 / 2 ∧
    find_plate_match [⟨"", ⟨0, 0, 10, 10⟩⟩] ⟨0, 0, 10, 10⟩ = some "" ∧
    violation_plate_label [⟨"", ⟨0, 0, 10, 10⟩⟩] ⟨0, 0, 10, 10⟩ = "Unknown" ∧
    "Unknown" ≠ ("" : String) := by
  have h1 : iou ⟨0, 0, 10, 10⟩ ⟨0, 0, 10, 10⟩ = 1 := by norm_num [iou]
  have h2 : find_plate_match [⟨"", ⟨0, 0, 10, 10⟩⟩] ⟨0, 0, 10, 10⟩ = some "" := by
    norm_num [find_plate_match, List.find?, h1]
  refine ⟨by rw [h1]; norm_num, h2, ?_, by decide⟩
  unfold violation_plate_label
  rw [h2]
  simp

/-- Claim C6, amended: the Associator scans all plate detections in
iteration order and binds the violation to the text of the first plate
whose IoU with the violation box exceeds 0.5 whenever that text is
non-empty; when no plate exceeds the threshold the violation is labeled
Unknown (and, per claim C10, an empty matched text also yields
Unknown). -/
theorem violation_plate_binding (plates : List Plate) (hv : Box) :
    (∀ p : Plate,
      plates.find? (fun q => decide (iou hv q.bbox > 1 / 2)) = some p →
      p.plate_text ≠ "" →
      violation_plate_label plates hv = p.plate_text) ∧
    (plates.find? (fun q => decide (iou hv q.bbox > 1 / 2)) = none →
      violation_plate_label plates hv = "Unknown") := by
  constructor
  · intro p hfind hne
    unfold violation_plate_label find_plate_match
    rw [hfind]
    simp [hne]
  · intro hfind
    unfold violation_plate_label find_plate_match
    rw [hfind]
    rfl

/-- Claim C6, amended, witness: a fully overlapping plate with non-empty
text is bound, and with no plate at all the label is Unknown. -/
theorem violation_plate_binding_witness :
    violation_plate_label [⟨"KA01AB1234", ⟨0, 0, 10, 10⟩⟩] ⟨0, 0, 10, 10⟩ =
      "KA01AB1234" ∧
    violation_plate_label [] ⟨0, 0, 10, 10⟩ = "Unknown" := by
  constructor
  · apply (violation_plate_binding [⟨"KA01AB1234", ⟨0, 0, 10, 10⟩⟩]
      ⟨0, 0, 10, 10⟩).1 ⟨"KA01AB1234", ⟨0, 0, 10, 10⟩⟩
    · have h1 : iou ⟨0, 0, 10, 10⟩ ⟨0, 0, 10, 10⟩ = 1 := by norm_num [iou]
      norm_num [List.find?, h1]
    · decide
  · exact (violation_plate_binding [] ⟨0, 0, 10, 10⟩).2 rfl

/-- Claim C10: when the first plate whose IoU with the violation box
exceeds 0.5 carries the empty string as text, the violation is reported
as Unknown, because the Python code tests the match for truthiness
rather than for presence. -/
theorem violation_empty_text_unknown (plates : List Plate) (hv : Box)
    (p : Plate)
    (hfind : plates.find? (fun q => decide (iou hv q.bbox > 1 / 2)) = some p)
    (hempty : p.plate_text = "") :
    violation_plate_label plates hv = "Unknown" := by
  unfold violation_plate_label find_plate_match
  rw [hfind]
  simp [hempty]

/-- Claim C10, witness: the empty-text overlapping plate evaluated
concretely. -/
theorem violation_empty_text_unknown_witness :
    violation_plate_label [⟨"", ⟨5, 5, 20, 20⟩⟩] ⟨5, 5, 20, 20⟩ = "Unknown" := by
  apply violation_empty_text_unknown [⟨"", ⟨5, 5, 20, 20⟩⟩] ⟨5, 5, 20, 20⟩
    ⟨"", ⟨5, 5, 20, 20⟩⟩
  · have h1 : iou ⟨5, 5, 20, 20⟩ ⟨5, 5, 20, 20⟩ = 1 := by norm_num [iou]
    norm_num [List.find?, h1]
  · rfl

/-- The fold of dict_insert keeps its keys free of duplicates and every
value bearing the text of its key. -/
lemma plate_dict_invariant :
    ∀ (l : List Plate) (m : List (String × Plate)),
      (m.map Prod.fst).Nodup → (∀ e ∈ m, e.2.plate_text = e.1) →
      ((List.foldl dict_insert m l).map Prod.fst).Nodup ∧
      (∀ e ∈ List.foldl dict_insert m l, e.2.plate_text = e.1) := by
  intro l
  induction l with
  | nil => intro m h1 h2; exact ⟨h1, h2⟩
  | cons p rest ih =>
    intro m h1 h2
    simp only [List.foldl_cons]
    apply ih
    · unfold dict_insert
      split
      · have hfun :
            (Prod.fst ∘ fun e : String × Plate =>
              if e.1 == p.plate_text then (e.1, p) else e) = Prod.fst := by
          funext e
          simp only [Function.comp_apply]
          split <;> rfl
        rw [List.map_map, hfun]
        exact h1
      · rename_i hany
        rw [List.map_append, List.nodup_append]
        refine ⟨h1, by simp, ?_⟩
        intro a ha
        simp only [List.map_cons, List.map_nil, List.mem_singleton]
        intro hEq
        apply hany
        rcases List.mem_map.mp ha with ⟨e, he, hfst⟩
        exact List.any_eq_true.mpr ⟨e, he, by simp [hfst, hEq]⟩
    · unfold dict_insert
      split
      · intro e he
        rcases List.mem_map.mp he with ⟨e0, he0, hsub⟩
        by_cases h : e0.1 == p.plate_text
        · rw [if_pos h] at hsub
          rw [← hsub]
          exact (eq_of_beq h).symm
        · rw [if_neg h] at hsub
          rw [← hsub]
          exact h2 e0 he0
      · intro e he
        rcases List.mem_append.mp he with he | he
        · exact h2 e he
        · have : e = (p.plate_text, p) := by simpa using he
          rw [this]

/-- Claim C9: the license_plates field of the final report holds
pairwise-distinct plate texts, whatever plate detections arrive and
however often a text repeats across units. -/
theorem license_plates_distinct (all_plates : List Plate) :
    (license_plates all_plates).Nodup := by
  have h := plate_dict_invariant all_plates [] (by simp) (by simp)
  unfold license_plates plate_dict
  have hmap :
      ((List.foldl dict_insert [] all_plates).map fun e => e.2.plate_text) =
        (List.foldl dict_insert [] all_plates).map Prod.fst :=
    List.map_congr_left fun e he => h.2 e he
  rw [hmap]
  exact h.1

/-- The dispatched messages are exactly the expected manifest tagged
with the task id. -/
lemma dispatch_eq (tid : String) :
    ∀ units : List Nat,
      dispatch_frames tid units =
        (expected_manifest units).map fun e => ⟨tid, e.1, e.2⟩ := by
  intro units
  induction units with
  | nil => rfl
  | cons u rest ih =>
    unfold dispatch_frames expected_manifest at *
    rw [List.flatMap_cons, List.flatMap_cons, List.map_append, ih]
    congr 1

/-- The expected manifest is the cartesian product of the sent frames
with the three kinds. -/
lemma expected_manifest_eq_product (units : List Nat) :
    expected_manifest units = units ×ˢ kinds := rfl

/-- Every kind is in the kind list. -/
lemma mem_kinds (k : Kind) : k ∈ kinds := by
  cases k <;> simp [kinds]

/-- Claim C2: for a media input decomposing into the given units, the
Dispatcher publishes exactly three subtasks per unit, the manifest of
expected unit-and-kind keys has cardinality three times the unit count
and, for distinct unit numbers, holds no duplicates; a message for unit
u and kind k is published exactly when u is among the units. -/
theorem dispatch_fanout (tid : String) (units : List Nat) :
    (dispatch_frames tid units).length = 3 * units.length ∧
    (expected_manifest units).length = 3 * units.length ∧
    (units.Nodup →
      (expected_manifest units).Nodup ∧ (dispatch_frames tid units).Nodup) ∧
    (∀ (u : Nat) (k : Kind),
      (⟨tid, u, k⟩ : FrameMsg) ∈ dispatch_frames tid units ↔ u ∈ units) := by
  have hinj : Function.Injective fun e : Nat × Kind => (⟨tid, e.1, e.2⟩ : FrameMsg) := by
    intro a b hab
    simp only [FrameMsg.mk.injEq] at hab
    exact Prod.ext hab.2.1 hab.2.2
  have hlen : (expected_manifest units).length = 3 * units.length := by
    rw [expected_manifest_eq_product, List.length_product]
    simp [kinds, Nat.mul_comm]
  refine ⟨?_, hlen, ?_, ?_⟩
  · rw [dispatch_eq tid units, List.length_map, hlen]
  · intro hnd
    have hm : (expected_manifest units).Nodup := by
      rw [expected_manifest_eq_product]
      exact hnd.product (by decide)
    exact ⟨hm, by rw [dispatch_eq tid units]; exact hm.map hinj⟩
  · intro u k
    rw [dispatch_eq tid units, expected_manifest_eq_product]
    constructor
    · intro hmem
      rcases List.mem_map.mp hmem with ⟨⟨a, b⟩, hab, heq⟩
      simp only [FrameMsg.mk.injEq] at heq
      have := List.mem_product.mp hab
      rw [← heq.2.1]
      exact this.1
    · intro hu
      exact List.mem_map.mpr
        ⟨(u, k), List.mem_product.mpr ⟨hu, mem_kinds k⟩, rfl⟩

/-- Claim C2, witness: the fan-out properties evaluated on two units. -/
theorem dispatch_fanout_witness :
    (dispatch_frames "t" [0, 1]).length = 3 * ([0, 1] : List Nat).length ∧
    (expected_manifest [0, 1]).Nodup ∧
    ((⟨"t", 0, Kind.vehicle⟩ : FrameMsg) ∈ dispatch_frames "t" [0, 1]) :=
  ⟨(dispatch_fanout "t" [0, 1]).1,
   ((dispatch_fanout "t" [0, 1]).2.2.1 (by decide)).1,
   ((dispatch_fanout "t" [0, 1]).2.2.2 0 Kind.vehicle).mpr (by decide)⟩

/-- The clock after polling one key advances by at most the number of
remaining attempts times the poll interval. -/
lemma poll_key_clock_le (sched : Sched) (deleted : List RKey) (key : RKey) :
    ∀ (n clock : Nat),
      (poll_key sched deleted key n clock).2 ≤ clock + n * POLL_INTERVAL := by
  intro n
  induction n with
  | zero => intro clock; simp [poll_key]
  | succ n ih =>
    intro clock
    rcases h : lookup_store sched deleted key clock with _ | v
    · have := ih (clock + POLL_INTERVAL)
      simp only [poll_key, h]
      simp only [POLL_INTERVAL] at this ⊢
      omega
    · simp [poll_key, h]

/-- A key already present in the store is found at the first poll with
no clock advance. -/
lemma poll_key_found (sched : Sched) (deleted : List RKey) (key : RKey)
    (clock : Nat) (v : String) (n : Nat)
    (h : lookup_store sched deleted key clock = some v) :
    poll_key sched deleted key (n + 1) clock = (some v, clock) := by
  simp [poll_key, h]

/-- The final clock of the collect loop advances by at most
MAX_WAIT_TIME per expected frame. -/
lemma collect_aux_clock_le (sched : Sched) (pid tt : String) :
    ∀ (frames : List Nat) (clock : Nat) (deleted : List RKey),
      (collect_aux sched pid tt frames clock deleted).2.2 ≤
        clock + frames.length * MAX_WAIT_TIME := by
  intro frames
  induction frames with
  | nil => intro clock deleted; simp [collect_aux]
  | cons f rest ih =>
    intro clock deleted
    rcases hp : poll_key sched deleted (pid, tt, f)
        (MAX_WAIT_TIME / POLL_INTERVAL) clock with ⟨r, clock2⟩
    have hb : clock2 ≤ clock + MAX_WAIT_TIME := by
      have := poll_key_clock_le sched deleted (pid, tt, f)
        (MAX_WAIT_TIME / POLL_INTERVAL) clock
      rw [hp] at this
      simpa [MAX_WAIT_TIME, POLL_INTERVAL] using this
    cases r with
    | some v =>
      have h2 := ih clock2 ((pid, tt, f) :: deleted)
      simp only [collect_aux, hp]
      simp only [List.length_cons, MAX_WAIT_TIME] at h2 ⊢
      simp only [MAX_WAIT_TIME] at hb
      omega
    | none =>
      have h2 := ih clock2 deleted
      simp only [collect_aux, hp]
      simp only [List.length_cons, MAX_WAIT_TIME] at h2 ⊢
      simp only [MAX_WAIT_TIME] at hb
      omega

/-- When every remaining frame has an undeleted record already available
at time zero, collection retrieves every record and never sleeps. -/
lemma collect_aux_all_present (sched : Sched) (pid tt : String) :
    ∀ (frames : List Nat) (clock : Nat) (deleted : List RKey),
      (∀ f ∈ frames,
        (pid, tt, f) ∉ deleted ∧ ∃ v, sched (pid, tt, f) = some (0, v)) →
      frames.Nodup →
      (collect_aux sched pid tt frames clock deleted).1.length = frames.length ∧
      (collect_aux sched pid tt frames clock deleted).2.2 = clock := by
  intro frames
  induction frames with
  | nil => intro clock deleted _ _; simp [collect_aux]
  | cons f rest ih =>
    intro clock deleted h hnd
    obtain ⟨hdel, v, hv⟩ := h f (by simp)
    have hlook : lookup_store sched deleted (pid, tt, f) clock = some v := by
      unfold lookup_store
      rw [if_neg hdel, hv]
      simp
    have hstep : MAX_WAIT_TIME / POLL_INTERVAL = 29 + 1 := rfl
    rw [List.nodup_cons] at hnd
    have hrec := ih clock ((pid, tt, f) :: deleted) ?_ hnd.2
    · simp only [collect_aux, hstep,
        poll_key_found sched deleted (pid, tt, f) clock v 29 hlook]
      exact ⟨by simp [hrec.1], hrec.2⟩
    · intro f2 hf2
      refine ⟨?_, (h f2 (by simp [hf2])).2⟩
      intro hmem
      rcases List.mem_cons.mp hmem with heq | hmem2
      · have : f2 = f := by simpa [Prod.ext_iff] using heq
        exact hnd.1 (this ▸ hf2)
      · exact (h f2 (by simp [hf2])).1 hmem2

/-- Claim C1, counterexample: with two expected frames and no record
ever arriving, collection takes twice MAX_WAIT_TIME, so the total wait
is not bounded by the single per-Task budget the claim states. -/
theorem collect_budget_counterexample :
    (collect_results (fun _ => none) "t1" "vehicle" [0, 1]).2.2 =
      2 * MAX_WAIT_TIME ∧
    MAX_WAIT_TIME < (collect_results (fun _ => none) "t1" "vehicle" [0, 1]).2.2 := by
  constructor <;> decide

/-- Claim C1, amended: the wait budget is per expected key, so the total
wait of the Collector is bounded by the number of expected keys times
MAX_WAIT_TIME; and when every expected key is already written at the
start of collection, every record is retrieved, nothing is missing and
no wait at all is incurred.  Keys that time out are only logged: the
Collector returns just the partial record list, with no missing-key
list. -/
theorem collect_per_key_budget (sched : Sched) (pid tt : String)
    (frames : List Nat) :
    (collect_results sched pid tt frames).2.2 ≤
      frames.length * MAX_WAIT_TIME ∧
    ((∀ f ∈ frames, ∃ v, sched (pid, tt, f) = some (0, v)) → frames.Nodup →
      (collect_results sched pid tt frames).1.length = frames.length ∧
      (collect_results sched pid tt frames).2.2 = 0) := by
  constructor
  · have := collect_aux_clock_le sched pid tt frames 0 []
    simpa [collect_results] using this
  · intro hall hnd
    have := collect_aux_all_present sched pid tt frames 0 []
      (fun f hf => ⟨by simp, hall f hf⟩) hnd
    simpa [collect_results] using this

/-- Claim C1, amended, witness: with both records available at time
zero, both are retrieved with zero elapsed wait. -/
theorem collect_per_key_budget_witness :
    (collect_results (fun _ => some (0, "rec")) "t1" "vehicle" [0, 1]).1.length =
      ([0, 1] : List Nat).length ∧
    (collect_results (fun _ => some (0, "rec")) "t1" "vehicle" [0, 1]).2.2 = 0 :=
  (collect_per_key_budget (fun _ => some (0, "rec")) "t1" "vehicle" [0, 1]).2
    (fun _ _ => ⟨"rec", rfl⟩) (by decide)

/-- The collect loop only ever deletes keys of its own frame list, one
deletion per retrieved record. -/
lemma collect_aux_deleted (sched : Sched) (pid tt : String) :
    ∀ (frames : List Nat) (clock : Nat) (deleted : List RKey),
      ∃ newdel : List RKey,
        (collect_aux sched pid tt frames clock deleted).2.1 =
          newdel ++ deleted ∧
        newdel.length = (collect_aux sched pid tt frames clock deleted).1.length ∧
        ∀ k ∈ newdel, k ∈ frames.map fun f => (pid, tt, f) := by
  intro frames
  induction frames with
  | nil =>
    intro clock deleted
    exact ⟨[], by simp [collect_aux], by simp [collect_aux], by simp⟩
  | cons f rest ih =>
    intro clock deleted
    rcases hp : poll_key sched deleted (pid, tt, f)
        (MAX_WAIT_TIME / POLL_INTERVAL) clock with ⟨r, clock2⟩
    cases r with
    | some v =>
      obtain ⟨nd, h1, h2, h3⟩ := ih clock2 ((pid, tt, f) :: deleted)
      refine ⟨nd ++ [(pid, tt, f)], ?_, ?_, ?_⟩
      · simp only [collect_aux, hp, h1, List.append_assoc, List.cons_append,
          List.nil_append]
      · simp [collect_aux, hp, h2]
      · intro k hk
        rcases List.mem_append.mp hk with hk | hk
        · have := h3 k hk
          simp only [List.map_cons, List.mem_cons]
          exact Or.inr this
        · have : k = (pid, tt, f) := by simpa using hk
          simp [this]
    | none =>
      obtain ⟨nd, h1, h2, h3⟩ := ih clock2 deleted
      refine ⟨nd, ?_, ?_, ?_⟩
      · simp only [collect_aux, hp, h1]
      · simp only [collect_aux, hp, h2]
      · intro k hk
        have := h3 k hk
        simp only [List.map_cons, List.mem_cons]
        exact Or.inr this

/-- Claim C8: collection deletes exactly one store key per retrieved
record, and every key it deletes is an expected key of its own task,
namely the triple of parent id, task type and one of its frame
numbers. -/
theorem collect_consume_once (sched : Sched) (pid tt : String)
    (frames : List Nat) :
    (collect_results sched pid tt frames).2.1.length =
      (collect_results sched pid tt frames).1.length ∧
    ∀ k ∈ (collect_results sched pid tt frames).2.1,
      k ∈ frames.map fun f => (pid, tt, f) := by
  obtain ⟨nd, h1, h2, h3⟩ := collect_aux_deleted sched pid tt frames 0 []
  constructor
  · unfold collect_results
    rw [h1]
    simpa using h2
  · intro k hk
    apply h3
    unfold collect_results at hk
    rw [h1] at hk
    simpa using hk

/-- Claim C8, witness: one expected frame, available immediately; its
key is deleted and is an expected key. -/
theorem collect_consume_once_witness :
    (collect_results (fun _ => some (0, "rec")) "t2" "plate" [5]).2.1.length =
      (collect_results (fun _ => some (0, "rec")) "t2" "plate" [5]).1.length ∧
    (("t2", "plate", 5) : RKey) ∈ ([5] : List Nat).map fun f =>
      (("t2" : String), ("plate" : String), f) :=
  ⟨(collect_consume_once (fun _ => some (0, "rec")) "t2" "plate" [5]).1,
   (collect_consume_once (fun _ => some (0, "rec")) "t2" "plate" [5]).2
     ("t2", "plate", 5) (by decide)⟩

/-- Claim C7: evidence of the divergence.  A task whose processing
raises leaves the store untouched, so a status query still reports the
non-terminal status queued, not a terminal failed status. -/
theorem failed_task_reports_queued :
    handle_task { result := none, status := some "queued" }
        ProcessOutcome.error =
      { result := none, status := some "queued" } ∧
    get_result_status
        (handle_task { result := none, status := some "queued" }
          ProcessOutcome.error) = "queued" ∧
    get_result_status
        (handle_task { result := none, status := some "queued" }
          ProcessOutcome.error) ≠ "failed" := by
  refine ⟨rfl, rfl, by decide⟩
